import Mathlib

/-!
Shallow embedding of `gen_bed.py`: the PLINK-bed genotype bit-packing codec,
its two column packers, and the two file writers, together with proofs of the
specification's laws about them.
-/

/-- A genotype value as it reaches the codec: an integer (the numpy integer
genotypes 0/1/2, or any other integer) or the floating NaN sentinel used for
missing calls. -/
inductive Genotype where
  | val (z : Int)
  | nan
deriving DecidableEq

/-- Errors surfaced by the embedded operations. `InvalidGenotype` models the
`KeyError` raised by the `GT_TO_BED_BITS` dict lookup on an unrecognized
genotype; `InvalidDimension` models numpy's `ValueError` for a negative
dimension argument; `EmptyConcat` models `np.column_stack([])` raising on an
empty list of columns. -/
inductive BedErr where
  | InvalidGenotype
  | InvalidDimension
  | EmptyConcat
deriving DecidableEq

/-- The dict `GT_TO_BED_BITS = {0: 3, 1: 2, np.nan: 1, 2: 0}` as seen by an
integer-keyed lookup; `none` models a `KeyError`.  (The `np.nan` key is never
consulted by the source: every lookup is guarded by `np.isnan`.) -/
def GT_TO_BED_BITS (z : Int) : Option Nat :=
  if z = 0 then some 3
  else if z = 1 then some 2
  else if z = 2 then some 0
  else none

/-- The 2-bit code of one genotype value: the `np.isnan(gt)` branch contributes
code 1, every other value goes through the `GT_TO_BED_BITS` lookup. -/
def bedCode : Genotype → Option Nat
  | .nan => some 1
  | .val z => GT_TO_BED_BITS z

/-- `validGeno g` holds when the codec recognizes `g` (no `KeyError`). -/
def validGeno (g : Genotype) : Bool :=
  (bedCode g).isSome

/-- The value fed to the codec for slot `idx` of a column of length `n`:
`gt = 0 if row_ix >= n else col[row_ix]` in
`_add_col_to_bytearray_with_padding`. -/
def colSlot (col : List Genotype) (n idx : Nat) : Option Nat :=
  bedCode (if n ≤ idx then .val 0 else col.getD idx (.val 0))

/-- One iteration of the inner `for _offset in range(4)` loop family of
`_add_col_to_bytearray_with_padding`: the byte for the group based at `base`,
accumulated as `b = b << 2; b += code` over slots `base+3, base+2, base+1,
base`.  `none` models the `KeyError` aborting the group. -/
def colGroup (col : List Genotype) (n base : Nat) : Option Nat := do
  let c3 ← colSlot col n (base + 3)
  let c2 ← colSlot col n (base + 2)
  let c1 ← colSlot col n (base + 1)
  let c0 ← colSlot col n base
  pure ((((c3 * 4 + c2) * 4 + c1) * 4) + c0)

/-- The `while row_ix < n` loop of `_add_col_to_bytearray_with_padding`,
with an explicit fuel (`n` is always enough fuel: each iteration advances
`row_ix` by 4).  The first component is the list of bytes appended to the
bytearray before the loop stops or a `KeyError` aborts it. -/
def packColGo (col : List Genotype) (n : Nat) : Nat → Nat → List Nat × Option BedErr
  | _, 0 => ([], none)
  | rowIx, fuel + 1 =>
    if rowIx < n then
      match colGroup col n rowIx with
      | none => ([], some BedErr.InvalidGenotype)
      | some b =>
        let r := packColGo col n (rowIx + 4) fuel
        (b :: r.1, r.2)
    else ([], none)

/-- `_add_col_to_bytearray_with_padding(col, barr)`: the bytes appended to
`barr`, with the error (if any) that aborted the call. -/
def add_col_to_bytearray_with_padding (col : List Genotype) : List Nat × Option BedErr :=
  packColGo col col.length 0 col.length

/-- The value fed to the codec for slot `idx` of column `colIx` of a matrix
with `nrows` rows: `gt = 0 if row_ix >= m.shape[0] else m[row_ix, col_ix]` in
`_add_mat_col_to_bytearray_with_padding`. -/
def matSlot (m : Nat → Nat → Genotype) (nrows colIx idx : Nat) : Option Nat :=
  bedCode (if nrows ≤ idx then .val 0 else m idx colIx)

/-- The byte for the group based at `base` of column `colIx` in
`_add_mat_col_to_bytearray_with_padding`. -/
def matGroup (m : Nat → Nat → Genotype) (nrows colIx base : Nat) : Option Nat := do
  let c3 ← matSlot m nrows colIx (base + 3)
  let c2 ← matSlot m nrows colIx (base + 2)
  let c1 ← matSlot m nrows colIx (base + 1)
  let c0 ← matSlot m nrows colIx base
  pure ((((c3 * 4 + c2) * 4 + c1) * 4) + c0)

/-- The `while row_ix < m.shape[0]` loop of
`_add_mat_col_to_bytearray_with_padding`, fuelled like `packColGo`. -/
def packMatColGo (m : Nat → Nat → Genotype) (nrows colIx : Nat) :
    Nat → Nat → List Nat × Option BedErr
  | _, 0 => ([], none)
  | rowIx, fuel + 1 =>
    if rowIx < nrows then
      match matGroup m nrows colIx rowIx with
      | none => ([], some BedErr.InvalidGenotype)
      | some b =>
        let r := packMatColGo m nrows colIx (rowIx + 4) fuel
        (b :: r.1, r.2)
    else ([], none)

/-- `_add_mat_col_to_bytearray_with_padding(m, col_ix, barr)`. -/
def add_mat_col_to_bytearray_with_padding (m : Nat → Nat → Genotype)
    (nrows colIx : Nat) : List Nat × Option BedErr :=
  packMatColGo m nrows colIx 0 nrows

/-- The slot value in `_add_mat_col_to_bytearray` (no padding guard):
`gt = m[row_ix, col_ix]` unconditionally. -/
def matSlotNoPad (m : Nat → Nat → Genotype) (colIx idx : Nat) : Option Nat :=
  bedCode (m idx colIx)

/-- The byte for the group based at `base` in `_add_mat_col_to_bytearray`. -/
def matGroupNoPad (m : Nat → Nat → Genotype) (colIx base : Nat) : Option Nat := do
  let c3 ← matSlotNoPad m colIx (base + 3)
  let c2 ← matSlotNoPad m colIx (base + 2)
  let c1 ← matSlotNoPad m colIx (base + 1)
  let c0 ← matSlotNoPad m colIx base
  pure ((((c3 * 4 + c2) * 4 + c1) * 4) + c0)

/-- The `while row_ix < m.shape[0]` loop of `_add_mat_col_to_bytearray`. -/
def packMatColNoPadGo (m : Nat → Nat → Genotype) (nrows colIx : Nat) :
    Nat → Nat → List Nat × Option BedErr
  | _, 0 => ([], none)
  | rowIx, fuel + 1 =>
    if rowIx < nrows then
      match matGroupNoPad m colIx rowIx with
      | none => ([], some BedErr.InvalidGenotype)
      | some b =>
        let r := packMatColNoPadGo m nrows colIx (rowIx + 4) fuel
        (b :: r.1, r.2)
    else ([], none)

/-- `_add_mat_col_to_bytearray(m, col_ix, barr)`; its `assert m.shape[0] % 4 == 0`
is carried as a hypothesis of the theorems about it. -/
def add_mat_col_to_bytearray (m : Nat → Nat → Genotype)
    (nrows colIx : Nat) : List Nat × Option BedErr :=
  packMatColNoPadGo m nrows colIx 0 nrows

/-- The magic numbers `[108, 27, 1]` for the plink col-major format. -/
def magicHeader : List Nat :=
  [108, 27, 1]

/-- The `for col_ix in range(p)` loop shared by `rand_bed_file` and
`write_m_to_bed`: `step j` is the (bytes, error) outcome of producing and
packing column `j`; `barr` is the bytearray contents carried into the first
iteration (the magic numbers, when enabled).  Each iteration appends the
packed column to `barr`, writes `barr` to the file and resets it; an error
raised while producing or packing a column aborts before that write, so the
bytes buffered for the failing column never reach the file.  The result is
the file contents and the error, if any. -/
def bedWriteLoop (step : Nat → List Nat × Option BedErr) :
    Nat → Nat → List Nat → List Nat × Option BedErr
  | _, 0, _ => ([], none)
  | colIx, k + 1, barr =>
    match step colIx with
    | (_, some e) => ([], some e)
    | (pb, none) =>
      let r := bedWriteLoop step (colIx + 1) k []
      (barr ++ pb ++ r.1, r.2)

/-- `rand_bed_file(n, p, filepath, magic_numbers)`: the bytes written to
`filepath` and the error, if any.  The random collaborator is abstracted by
`cols`, the sequence of columns `_rand_gt_col` would return (one per loop
iteration); `rng.binomial(2, maf, n)` raises a `ValueError` when `n < 0`
before anything is written, and `range(p)` is empty when `p ≤ 0`. -/
def rand_bed_file (cols : Nat → List Genotype) (n p : Int) (magic : Bool) :
    List Nat × Option BedErr :=
  bedWriteLoop
    (fun j =>
      if n < 0 then ([], some BedErr.InvalidDimension)
      else add_col_to_bytearray_with_padding (cols j))
    0 p.toNat (if magic then magicHeader else [])

/-- `write_m_to_bed(m, filepath, magic_numbers)` for a matrix with `nrows`
rows and `ncols` columns: the bytes written and the error, if any. -/
def write_m_to_bed (m : Nat → Nat → Genotype) (nrows ncols : Nat) (magic : Bool) :
    List Nat × Option BedErr :=
  bedWriteLoop (fun j => add_mat_col_to_bytearray_with_padding m nrows j)
    0 ncols (if magic then magicHeader else [])

/-- `rand_gt_mat(n, p)`: `rng.uniform(0.0, 0.5, p)` raises for `p < 0`;
evaluating the first `rng.binomial(2, f, n)` of the comprehension raises for
`n < 0` when there is at least one column; `np.column_stack([])` raises when
`p = 0`.  Otherwise the matrix is returned as its list of columns, the random
collaborator again abstracted by `cols`. -/
def rand_gt_mat (cols : Nat → List Genotype) (n p : Int) :
    Except BedErr (List (List Genotype)) :=
  if p < 0 then .error BedErr.InvalidDimension
  else if 0 < p ∧ n < 0 then .error BedErr.InvalidDimension
  else if p = 0 then .error BedErr.EmptyConcat
  else .ok ((List.range p.toNat).map cols)

/-- Column `colIx` of the matrix `m` with `nrows` rows, extracted as the
standalone sequence the streaming path would pack. -/
def matCol (m : Nat → Nat → Genotype) (nrows colIx : Nat) : List Genotype :=
  (List.range nrows).map (fun r => m r colIx)

/-- Concatenation of the per-column outputs `out colIx, …, out (colIx+k-1)`. -/
def outConcat (out : Nat → List Nat) : Nat → Nat → List Nat
  | _, 0 => []
  | colIx, k + 1 => out colIx ++ outConcat out (colIx + 1) k

/-- The concatenated packed bytes of columns `colIx, …, colIx+k-1`, each packed
as a standalone sequence. -/
def packedColsFrom (cols : Nat → List Genotype) (colIx k : Nat) : List Nat :=
  outConcat (fun j => (add_col_to_bytearray_with_padding (cols j)).1) colIx k

/-- The concatenated packed bytes of matrix columns `colIx, …, colIx+k-1`. -/
def packedMatColsFrom (m : Nat → Nat → Genotype) (nrows colIx k : Nat) : List Nat :=
  outConcat (fun j => (add_mat_col_to_bytearray_with_padding m nrows j).1) colIx k


/-- The column of a concrete 12-row, 1-column matrix whose packed bytes happen
to coincide with the magic numbers. -/
def colBad : List Genotype :=
  [.val 2, .val 0, .val 1, .nan, .val 0, .val 1, .nan, .val 2, .nan, .val 2, .val 2, .val 2]

/-- That 12-row matrix as a function. -/
def matBad : Nat → Nat → Genotype :=
  fun r _ => colBad.getD r (.val 0)

lemma getD_mem_of_lt {α : Type} (l : List α) (d : α) :
    ∀ i, i < l.length → l.getD i d ∈ l := by
  induction l with
  | nil => intro i h; simp at h
  | cons a t ih =>
    intro i h
    cases i with
    | zero => simp [List.getD]
    | succ j =>
      have : t.getD j d ∈ t := ih j (by simpa using h)
      simp [List.getD] at this ⊢
      exact Or.inr this

lemma bedCode_lt_four (g : Genotype) (c : Nat) (h : bedCode g = some c) : c < 4 := by
  cases g with
  | nan => simp [bedCode] at h; omega
  | val z =>
    simp [bedCode, GT_TO_BED_BITS] at h
    split_ifs at h <;> simp_all <;> omega

lemma colSlot_of_le (col : List Genotype) (n idx : Nat) (h : n ≤ idx) :
    colSlot col n idx = some 3 := by
  simp [colSlot, if_pos h, bedCode, GT_TO_BED_BITS]

lemma colSlot_of_lt (col : List Genotype) (n idx : Nat) (h : idx < n) :
    colSlot col n idx = bedCode (col.getD idx (.val 0)) := by
  simp [colSlot, Nat.not_le_of_lt h]

lemma colSlot_isSome (col : List Genotype) (hv : ∀ g ∈ col, validGeno g = true)
    (idx : Nat) : (colSlot col col.length idx).isSome := by
  by_cases h : col.length ≤ idx
  · simp [colSlot_of_le col _ _ h]
  · rw [colSlot_of_lt col _ _ (by omega)]
    have hm : col.getD idx (.val 0) ∈ col := getD_mem_of_lt col _ idx (by omega)
    simpa [validGeno] using hv _ hm

lemma colGroup_eq_of_slots (col : List Genotype) (n base c0 c1 c2 c3 : Nat)
    (e3 : colSlot col n (base + 3) = some c3)
    (e2 : colSlot col n (base + 2) = some c2)
    (e1 : colSlot col n (base + 1) = some c1)
    (e0 : colSlot col n base = some c0) :
    colGroup col n base = some ((((c3 * 4 + c2) * 4 + c1) * 4) + c0) := by
  simp [colGroup, e3, e2, e1, e0]

lemma colGroup_isSome (col : List Genotype) (hv : ∀ g ∈ col, validGeno g = true)
    (base : Nat) : (colGroup col col.length base).isSome := by
  obtain ⟨c3, e3⟩ := Option.isSome_iff_exists.mp (colSlot_isSome col hv (base + 3))
  obtain ⟨c2, e2⟩ := Option.isSome_iff_exists.mp (colSlot_isSome col hv (base + 2))
  obtain ⟨c1, e1⟩ := Option.isSome_iff_exists.mp (colSlot_isSome col hv (base + 1))
  obtain ⟨c0, e0⟩ := Option.isSome_iff_exists.mp (colSlot_isSome col hv base)
  simp [colGroup_eq_of_slots col _ _ c0 c1 c2 c3 e3 e2 e1 e0]

lemma packColGo_stop (col : List Genotype) (n rowIx fuel : Nat) (h : ¬ rowIx < n) :
    packColGo col n rowIx fuel = ([], none) := by
  cases fuel <;> simp [packColGo, h]

lemma packColGo_step (col : List Genotype) (n rowIx fuel b : Nat) (h : rowIx < n)
    (hg : colGroup col n rowIx = some b) :
    packColGo col n rowIx (fuel + 1) =
      (b :: (packColGo col n (rowIx + 4) fuel).1, (packColGo col n (rowIx + 4) fuel).2) := by
  simp [packColGo, h, hg]

lemma packColGo_fail (col : List Genotype) (n rowIx fuel : Nat) (h : rowIx < n)
    (hg : colGroup col n rowIx = none) :
    packColGo col n rowIx (fuel + 1) = ([], some BedErr.InvalidGenotype) := by
  simp [packColGo, h, hg]

lemma packColGo_ok (col : List Genotype) (hv : ∀ g ∈ col, validGeno g = true) :
    ∀ fuel rowIx, col.length ≤ rowIx + 4 * fuel →
      (packColGo col col.length rowIx fuel).2 = none ∧
      (packColGo col col.length rowIx fuel).1.length = (col.length - rowIx + 3) / 4 := by
  intro fuel
  induction fuel with
  | zero =>
    intro rowIx h
    refine ⟨by simp [packColGo], ?_⟩
    simp [packColGo]
    omega
  | succ fuel ih =>
    intro rowIx h
    by_cases hr : rowIx < col.length
    · obtain ⟨b, hb⟩ := Option.isSome_iff_exists.mp (colGroup_isSome col hv rowIx)
      obtain ⟨ih2, ih1⟩ := ih (rowIx + 4) (by omega)
      rw [packColGo_step col _ rowIx fuel b hr hb]
      refine ⟨ih2, ?_⟩
      simp [ih1]
      omega
    · rw [packColGo_stop col _ rowIx _ hr]
      refine ⟨rfl, ?_⟩
      simp
      omega

/-- The two-sided form used below: a valid column packs without error into
exactly `⌈n/4⌉` bytes. -/
lemma add_col_ok (col : List Genotype) (hv : ∀ g ∈ col, validGeno g = true) :
    (add_col_to_bytearray_with_padding col).2 = none ∧
    (add_col_to_bytearray_with_padding col).1.length = (col.length + 3) / 4 := by
  have := packColGo_ok col hv col.length 0 (by omega)
  simpa [add_col_to_bytearray_with_padding] using this

lemma matCol_length (m : Nat → Nat → Genotype) (nrows colIx : Nat) :
    (matCol m nrows colIx).length = nrows := by
  simp [matCol]

lemma matCol_getD (m : Nat → Nat → Genotype) (nrows colIx idx : Nat) (d : Genotype)
    (h : idx < nrows) : (matCol m nrows colIx).getD idx d = m idx colIx := by
  simp [matCol, List.getD_eq_getElem?_getD, List.getElem?_map, List.getElem?_range, h]

lemma matSlot_eq_colSlot (m : Nat → Nat → Genotype) (nrows colIx idx : Nat) :
    matSlot m nrows colIx idx = colSlot (matCol m nrows colIx) nrows idx := by
  by_cases h : nrows ≤ idx
  · simp [matSlot, colSlot, if_pos h]
  · simp only [matSlot, colSlot, if_neg h]
    rw [matCol_getD m nrows colIx idx _ (by omega)]

lemma matGroup_eq_colGroup (m : Nat → Nat → Genotype) (nrows colIx base : Nat) :
    matGroup m nrows colIx base = colGroup (matCol m nrows colIx) nrows base := by
  simp [matGroup, colGroup, matSlot_eq_colSlot]

lemma packMatColGo_eq_packColGo (m : Nat → Nat → Genotype) (nrows colIx : Nat) :
    ∀ fuel rowIx, packMatColGo m nrows colIx rowIx fuel =
      packColGo (matCol m nrows colIx) nrows rowIx fuel := by
  intro fuel
  induction fuel with
  | zero => intro rowIx; simp [packMatColGo, packColGo]
  | succ fuel ih =>
    intro rowIx
    simp only [packMatColGo, packColGo, matGroup_eq_colGroup, ih]

/-- The whole-matrix packer produces exactly what the streaming packer produces
on the extracted column. -/
lemma add_mat_col_with_padding_eq (m : Nat → Nat → Genotype) (nrows colIx : Nat) :
    add_mat_col_to_bytearray_with_padding m nrows colIx =
      add_col_to_bytearray_with_padding (matCol m nrows colIx) := by
  simp [add_mat_col_to_bytearray_with_padding, add_col_to_bytearray_with_padding,
    matCol_length, packMatColGo_eq_packColGo]

lemma add_mat_col_ok (m : Nat → Nat → Genotype) (nrows colIx : Nat)
    (hv : ∀ r, r < nrows → validGeno (m r colIx) = true) :
    (add_mat_col_to_bytearray_with_padding m nrows colIx).2 = none ∧
    (add_mat_col_to_bytearray_with_padding m nrows colIx).1.length = (nrows + 3) / 4 := by
  rw [add_mat_col_with_padding_eq]
  have hv' : ∀ g ∈ matCol m nrows colIx, validGeno g = true := by
    intro g hg
    simp [matCol] at hg
    obtain ⟨r, hr, rfl⟩ := hg
    exact hv r hr
  have := add_col_ok (matCol m nrows colIx) hv'
  simpa [matCol_length] using this

lemma matSlot_eq_noPad (m : Nat → Nat → Genotype) (nrows colIx idx : Nat)
    (h : idx < nrows) : matSlot m nrows colIx idx = matSlotNoPad m colIx idx := by
  simp [matSlot, matSlotNoPad, Nat.not_le_of_lt h]

lemma matGroupNoPad_eq (m : Nat → Nat → Genotype) (nrows colIx base : Nat)
    (h : base + 3 < nrows) :
    matGroupNoPad m colIx base = matGroup m nrows colIx base := by
  simp [matGroup, matGroupNoPad,
    matSlot_eq_noPad m nrows colIx (base + 3) (by omega),
    matSlot_eq_noPad m nrows colIx (base + 2) (by omega),
    matSlot_eq_noPad m nrows colIx (base + 1) (by omega),
    matSlot_eq_noPad m nrows colIx base (by omega)]

lemma packMatColNoPadGo_eq (m : Nat → Nat → Genotype) (nrows colIx : Nat)
    (h4 : nrows % 4 = 0) :
    ∀ fuel rowIx, rowIx % 4 = 0 →
      packMatColNoPadGo m nrows colIx rowIx fuel = packMatColGo m nrows colIx rowIx fuel := by
  intro fuel
  induction fuel with
  | zero => intro rowIx _; simp [packMatColNoPadGo, packMatColGo]
  | succ fuel ih =>
    intro rowIx hmod
    by_cases hr : rowIx < nrows
    · have hb : rowIx + 3 < nrows := by omega
      simp only [packMatColNoPadGo, packMatColGo, if_pos hr,
        matGroupNoPad_eq m nrows colIx rowIx hb, ih (rowIx + 4) (by omega)]
    · simp only [packMatColNoPadGo, packMatColGo, if_neg hr]

lemma outConcat_length (out : Nat → List Nat) (L : Nat) (h : ∀ j, (out j).length = L) :
    ∀ k colIx, (outConcat out colIx k).length = k * L := by
  intro k
  induction k with
  | zero => intro colIx; simp [outConcat]
  | succ k ih =>
    intro colIx
    simp [outConcat, h, ih]
    ring

lemma bedWriteLoop_ok (step : Nat → List Nat × Option BedErr) (out : Nat → List Nat)
    (hstep : ∀ j, step j = (out j, none)) :
    ∀ k colIx barr, bedWriteLoop step colIx k barr =
      ((if k = 0 then [] else barr ++ outConcat out colIx k), none) := by
  intro k
  induction k with
  | zero => intro colIx barr; simp [bedWriteLoop]
  | succ k ih =>
    intro colIx barr
    simp only [bedWriteLoop, hstep colIx]
    rw [ih (colIx + 1) []]
    cases k with
    | zero => simp [outConcat]
    | succ k => simp [outConcat, List.append_assoc]

lemma packedColsFrom_length (cols : Nat → List Genotype) (n : Nat)
    (hlen : ∀ j, (cols j).length = n)
    (hv : ∀ j g, g ∈ cols j → validGeno g = true) (colIx k : Nat) :
    (packedColsFrom cols colIx k).length = k * ((n + 3) / 4) := by
  refine outConcat_length _ _ ?_ k colIx
  intro j
  have := (add_col_ok (cols j) (hv j)).2
  rw [hlen j] at this
  exact this

lemma packedMatColsFrom_length (m : Nat → Nat → Genotype) (nrows : Nat)
    (hv : ∀ r c, r < nrows → validGeno (m r c) = true) (colIx k : Nat) :
    (packedMatColsFrom m nrows colIx k).length = k * ((nrows + 3) / 4) := by
  refine outConcat_length _ _ ?_ k colIx
  intro j
  exact (add_mat_col_ok m nrows j (fun r hr => hv r j hr)).2

lemma rand_bed_file_ok (cols : Nat → List Genotype) (n p : Int) (magic : Bool)
    (hn : 0 ≤ n) (hv : ∀ j g, g ∈ cols j → validGeno g = true) :
    rand_bed_file cols n p magic =
      ((if p.toNat = 0 then [] else
          (if magic then magicHeader else []) ++ packedColsFrom cols 0 p.toNat), none) := by
  have hstep : ∀ j,
      (if n < 0 then ([], some BedErr.InvalidDimension)
       else add_col_to_bytearray_with_padding (cols j)) =
        ((add_col_to_bytearray_with_padding (cols j)).1, none) := by
    intro j
    rw [if_neg (by omega)]
    exact Prod.ext rfl (add_col_ok (cols j) (hv j)).1
  unfold rand_bed_file
  rw [bedWriteLoop_ok _ _ hstep]
  rfl

lemma write_m_to_bed_ok (m : Nat → Nat → Genotype) (nrows ncols : Nat) (magic : Bool)
    (hv : ∀ r c, r < nrows → validGeno (m r c) = true) :
    write_m_to_bed m nrows ncols magic =
      ((if ncols = 0 then [] else
          (if magic then magicHeader else []) ++ packedMatColsFrom m nrows 0 ncols), none) := by
  have hstep : ∀ j, add_mat_col_to_bytearray_with_padding m nrows j =
      ((add_mat_col_to_bytearray_with_padding m nrows j).1, none) := by
    intro j
    exact Prod.ext rfl (add_mat_col_ok m nrows j (fun r hr => hv r j hr)).1
  unfold write_m_to_bed
  rw [bedWriteLoop_ok _ _ hstep]
  rfl

lemma colGroup_none_of_mem (g0 g1 g2 g3 g : Genotype)
    (hmem : g ∈ [g0, g1, g2, g3]) (hbad : bedCode g = none) :
    colGroup [g0, g1, g2, g3] 4 0 = none := by
  have hmem' : g = g0 ∨ g = g1 ∨ g = g2 ∨ g = g3 := by simpa using hmem
  have key : bedCode g0 = none ∨ bedCode g1 = none ∨
      bedCode g2 = none ∨ bedCode g3 = none := by
    rcases hmem' with rfl | rfl | rfl | rfl
    · exact Or.inl hbad
    · exact Or.inr (Or.inl hbad)
    · exact Or.inr (Or.inr (Or.inl hbad))
    · exact Or.inr (Or.inr (Or.inr hbad))
  rcases key with h | h | h | h <;>
    cases h3 : bedCode g3 <;> cases h2 : bedCode g2 <;>
      cases h1 : bedCode g1 <;> cases h0 : bedCode g0 <;>
        simp_all [colGroup, colSlot, List.getD]

/-- Claim C1: for a group of four genotype values the codec recognizes with
codes `c0..c3` (the mapping being HomAlt ↦ 00, Het ↦ 10, Missing ↦ 01,
HomRef ↦ 11), the column packer emits the single byte
`c0 ||| (c1 <<< 2) ||| (c2 <<< 4) ||| (c3 <<< 6)`; in particular the group
`[HomAlt, Het, Missing, HomRef]` packs to `0xD8`. -/
theorem claim_C1 (g0 g1 g2 g3 : Genotype) (c0 c1 c2 c3 : Nat)
    (h0 : bedCode g0 = some c0) (h1 : bedCode g1 = some c1)
    (h2 : bedCode g2 = some c2) (h3 : bedCode g3 = some c3) :
    bedCode (.val 2) = some 0 ∧ bedCode (.val 1) = some 2 ∧
    bedCode .nan = some 1 ∧ bedCode (.val 0) = some 3 ∧
    add_col_to_bytearray_with_padding [g0, g1, g2, g3] =
      ([c0 ||| (c1 <<< 2) ||| (c2 <<< 4) ||| (c3 <<< 6)], none) ∧
    add_col_to_bytearray_with_padding [.val 2, .val 1, .nan, .val 0] = ([0xD8], none) := by
  refine ⟨rfl, rfl, rfl, rfl, ?_, by decide⟩
  have e3 : colSlot [g0, g1, g2, g3] 4 (0 + 3) = some c3 := by
    rw [show colSlot [g0, g1, g2, g3] 4 (0 + 3) = bedCode g3 from rfl, h3]
  have e2 : colSlot [g0, g1, g2, g3] 4 (0 + 2) = some c2 := by
    rw [show colSlot [g0, g1, g2, g3] 4 (0 + 2) = bedCode g2 from rfl, h2]
  have e1 : colSlot [g0, g1, g2, g3] 4 (0 + 1) = some c1 := by
    rw [show colSlot [g0, g1, g2, g3] 4 (0 + 1) = bedCode g1 from rfl, h1]
  have e0 : colSlot [g0, g1, g2, g3] 4 0 = some c0 := by
    rw [show colSlot [g0, g1, g2, g3] 4 0 = bedCode g0 from rfl, h0]
  have hg : colGroup [g0, g1, g2, g3] 4 0 =
      some ((((c3 * 4 + c2) * 4 + c1) * 4) + c0) :=
    colGroup_eq_of_slots [g0, g1, g2, g3] 4 0 c0 c1 c2 c3 e3 e2 e1 e0
  have hrun : add_col_to_bytearray_with_padding [g0, g1, g2, g3] =
      ([(((c3 * 4 + c2) * 4 + c1) * 4) + c0], none) := by
    show packColGo [g0, g1, g2, g3] 4 0 (3 + 1) = _
    rw [packColGo_step [g0, g1, g2, g3] 4 0 3 _ (by omega) hg,
      packColGo_stop [g0, g1, g2, g3] 4 (0 + 4) 3 (by omega)]
  have harith : ∀ x0, x0 < 4 → ∀ x1, x1 < 4 → ∀ x2, x2 < 4 → ∀ x3, x3 < 4 →
      (((x3 * 4 + x2) * 4 + x1) * 4) + x0 =
        x0 ||| (x1 <<< 2) ||| (x2 <<< 4) ||| (x3 <<< 6) := by decide
  rw [hrun, harith c0 (bedCode_lt_four g0 c0 h0) c1 (bedCode_lt_four g1 c1 h1)
    c2 (bedCode_lt_four g2 c2 h2) c3 (bedCode_lt_four g3 c3 h3)]

theorem claim_C1_witness :
    add_col_to_bytearray_with_padding [.val 2, .val 1, .nan, .val 0] = ([0xD8], none) := by
  have h := claim_C1 (Genotype.val 2) (Genotype.val 1) Genotype.nan (Genotype.val 0)
    0 2 1 3 rfl rfl rfl rfl
  have e : (0 ||| (2 <<< 2) ||| (1 <<< 4) ||| (3 <<< 6) : Nat) = 0xD8 := by decide
  simpa [e] using h.2.2.2.2.1

/-- Claim C3: every slot at or beyond the column length is encoded as HomRef
(code 11 = 3), not Missing; hence `[HomRef]` packs to the single byte `0xFF`
and `[Missing]` packs to the single byte `0xFD`. -/
theorem claim_C3 (col : List Genotype) (n idx : Nat) (h : n ≤ idx) :
    colSlot col n idx = some 3 ∧
    add_col_to_bytearray_with_padding [.val 0] = ([0xFF], none) ∧
    add_col_to_bytearray_with_padding [.nan] = ([0xFD], none) :=
  ⟨colSlot_of_le col n idx h, by decide, by decide⟩

theorem claim_C3_witness :
    colSlot [] 0 5 = some 3 ∧
    add_col_to_bytearray_with_padding [.val 0] = ([0xFF], none) ∧
    add_col_to_bytearray_with_padding [.nan] = ([0xFD], none) :=
  claim_C3 [] 0 5 (by decide)

/-- Claim C4: a column of `n` valid genotype values packs without error into
exactly `⌈n/4⌉ = (n+3)/4` bytes; an empty column packs to zero bytes. -/
theorem claim_C4 (col : List Genotype) (hv : ∀ g ∈ col, validGeno g = true) :
    (add_col_to_bytearray_with_padding col).1.length = (col.length + 3) / 4 ∧
    (add_col_to_bytearray_with_padding col).2 = none ∧
    add_col_to_bytearray_with_padding [] = ([], none) :=
  ⟨(add_col_ok col hv).2, (add_col_ok col hv).1, by decide⟩

theorem claim_C4_witness :
    (add_col_to_bytearray_with_padding
      [.val 0, .val 1, .val 2, .nan, .val 0]).1.length = 2 ∧
    (add_col_to_bytearray_with_padding
      [.val 0, .val 1, .val 2, .nan, .val 0]).2 = none := by
  have h := claim_C4 [.val 0, .val 1, .val 2, .nan, .val 0] (by decide)
  exact ⟨by simpa using h.1, h.2.1⟩

/-- Claim C7: a group of 4 containing a genotype value the codec does not
recognize (such as 3 or -1) is reported as an `InvalidGenotype` error and no
byte is appended for that group. -/
theorem claim_C7 (col : List Genotype) (g : Genotype) (hlen : col.length = 4)
    (hmem : g ∈ col) (hbad : bedCode g = none) :
    add_col_to_bytearray_with_padding col = ([], some BedErr.InvalidGenotype) := by
  rcases col with - | ⟨g0, - | ⟨g1, - | ⟨g2, - | ⟨g3, rest⟩⟩⟩⟩ <;> simp at hlen
  subst hlen
  have hg : colGroup [g0, g1, g2, g3] 4 0 = none :=
    colGroup_none_of_mem g0 g1 g2 g3 g hmem hbad
  show packColGo [g0, g1, g2, g3] 4 0 (3 + 1) = _
  rw [packColGo_fail [g0, g1, g2, g3] 4 0 3 (by omega) hg]

theorem claim_C7_witness :
    add_col_to_bytearray_with_padding [.val 3, .val 0, .val 0, .val 0] =
      ([], some BedErr.InvalidGenotype) ∧
    add_col_to_bytearray_with_padding [.val (-1), .val 1, .nan, .val 2] =
      ([], some BedErr.InvalidGenotype) :=
  ⟨claim_C7 _ (Genotype.val 3) rfl (by decide) rfl,
   claim_C7 _ (Genotype.val (-1)) rfl (by decide) (by decide)⟩

/-- Claim C9: under the asserted precondition `m.shape[0] % 4 == 0`, the
unpadded matrix-column packer appends exactly the same bytes as the padded
one. -/
theorem claim_C9 (m : Nat → Nat → Genotype) (nrows colIx : Nat)
    (h4 : nrows % 4 = 0) :
    add_mat_col_to_bytearray m nrows colIx =
      add_mat_col_to_bytearray_with_padding m nrows colIx := by
  unfold add_mat_col_to_bytearray add_mat_col_to_bytearray_with_padding
  exact packMatColNoPadGo_eq m nrows colIx h4 nrows 0 (by omega)

theorem claim_C9_witness :
    4 % 4 = 0 ∧
    add_mat_col_to_bytearray (fun _ _ => Genotype.val 1) 4 0 =
      add_mat_col_to_bytearray_with_padding (fun _ _ => Genotype.val 1) 4 0 :=
  ⟨by decide, claim_C9 (fun _ _ => Genotype.val 1) 4 0 (by decide)⟩

/-- Claim C2: packing a column extracted as a standalone sequence agrees
byte-for-byte with packing that column out of the whole matrix, and hence the
streaming writer fed the matrix's columns produces the same file as the
whole-matrix writer, for either header flag. -/
theorem claim_C2 (m : Nat → Nat → Genotype) (nrows ncols colIx : Nat)
    (magic : Bool) :
    add_col_to_bytearray_with_padding (matCol m nrows colIx) =
      add_mat_col_to_bytearray_with_padding m nrows colIx ∧
    rand_bed_file (fun j => matCol m nrows j) nrows ncols magic =
      write_m_to_bed m nrows ncols magic := by
  refine ⟨(add_mat_col_with_padding_eq m nrows colIx).symm, ?_⟩
  have hsteps :
      (fun j => if (nrows : Int) < 0 then ([], some BedErr.InvalidDimension)
        else add_col_to_bytearray_with_padding (matCol m nrows j)) =
      (fun j => add_mat_col_to_bytearray_with_padding m nrows j) := by
    funext j
    rw [if_neg (by omega)]
    exact (add_mat_col_with_padding_eq m nrows j).symm
  unfold rand_bed_file write_m_to_bed
  rw [hsteps]
  norm_num

/-- Claim C10: with zero columns both writers emit nothing at all: the header
bytes sit in the buffer, but the buffer is only flushed inside the per-column
loop, which runs zero times. -/
theorem claim_C10 (cols : Nat → List Genotype) (n : Int)
    (m : Nat → Nat → Genotype) (nrows : Nat) (magic magic2 : Bool) :
    rand_bed_file cols n 0 magic = ([], none) ∧
    write_m_to_bed m nrows 0 magic2 = ([], none) :=
  ⟨rfl, rfl⟩

theorem claim_C5_counterexample :
    (rand_bed_file (fun _ => List.replicate 5 (Genotype.val 0)) 5 0 true).1.length = 0 ∧
    (write_m_to_bed (fun _ _ => Genotype.val 0) 5 0 true).1.length = 0 := by decide

/-- Claim C5 (amended): with the header enabled and at least one column, the
output is exactly `3 + p * ⌈n/4⌉` bytes; with zero columns the output is
empty — the header is buffered but never flushed, since the flush happens
only inside the per-column loop. -/
theorem claim_C5_amended (cols : Nat → List Genotype) (n p : Int)
    (m : Nat → Nat → Genotype) (nrows ncols : Nat)
    (hn : 0 ≤ n) (hp : 1 ≤ p) (hncols : 1 ≤ ncols)
    (hlen : ∀ j, (cols j).length = n.toNat)
    (hv : ∀ j g, g ∈ cols j → validGeno g = true)
    (hmv : ∀ r c, r < nrows → validGeno (m r c) = true) :
    (rand_bed_file cols n p true).1.length = 3 + p.toNat * ((n.toNat + 3) / 4) ∧
    (rand_bed_file cols n p true).2 = none ∧
    (write_m_to_bed m nrows ncols true).1.length = 3 + ncols * ((nrows + 3) / 4) ∧
    (write_m_to_bed m nrows ncols true).2 = none ∧
    (rand_bed_file cols n 0 true).1.length = 0 ∧
    (write_m_to_bed m nrows 0 true).1.length = 0 := by
  have h1 := rand_bed_file_ok cols n p true hn hv
  have h2 := write_m_to_bed_ok m nrows ncols true hmv
  have hpt : ¬ p.toNat = 0 := by omega
  have hct : ¬ ncols = 0 := by omega
  refine ⟨?_, ?_, ?_, ?_, rfl, rfl⟩
  · rw [h1]
    simp [hpt, magicHeader, packedColsFrom_length cols n.toNat hlen hv]
    omega
  · rw [h1]
  · rw [h2]
    simp [hct, magicHeader, packedMatColsFrom_length m nrows hmv]
    omega
  · rw [h2]

theorem claim_C5_amended_witness :
    (rand_bed_file (fun _ => [Genotype.val 0]) 1 2 true).1.length = 5 ∧
    (rand_bed_file (fun _ => [Genotype.val 0]) 1 2 true).2 = none ∧
    (write_m_to_bed (fun _ _ => Genotype.val 1) 1 2 true).1.length = 5 ∧
    (write_m_to_bed (fun _ _ => Genotype.val 1) 1 2 true).2 = none ∧
    (rand_bed_file (fun _ => [Genotype.val 0]) 1 0 true).1.length = 0 ∧
    (write_m_to_bed (fun _ _ => Genotype.val 1) 1 0 true).1.length = 0 := by
  have h := claim_C5_amended (fun _ => [Genotype.val 0]) 1 2
    (fun _ _ => Genotype.val 1) 1 2 (by decide) (by decide) (by decide)
    (fun _ => rfl)
    (fun j g hg => by simp at hg; subst hg; decide)
    (fun _ _ _ => rfl)
  simpa using h

theorem claim_C6_counterexample :
    magicHeader.isPrefixOf (rand_bed_file (fun _ => []) 0 0 true).1 = false ∧
    magicHeader.isPrefixOf (write_m_to_bed matBad 12 1 false).1 = true := by decide

/-- Claim C6 (amended): with at least one column, a header-enabled write
begins with the magic bytes `[0x6C, 0x1B, 0x01]` and the remainder is the
concatenation of the packed columns in order; a headerless write is exactly
that concatenation — which can itself begin with the magic bytes, and with
zero columns the header-enabled output is empty, so neither direction of the
original header claim survives at those inputs. -/
theorem claim_C6_amended (cols : Nat → List Genotype) (n p : Int)
    (m : Nat → Nat → Genotype) (nrows ncols : Nat)
    (hn : 0 ≤ n) (hp : 1 ≤ p) (hncols : 1 ≤ ncols)
    (hv : ∀ j g, g ∈ cols j → validGeno g = true)
    (hmv : ∀ r c, r < nrows → validGeno (m r c) = true) :
    (rand_bed_file cols n p true).1 =
      magicHeader ++ packedColsFrom cols 0 p.toNat ∧
    (rand_bed_file cols n p false).1 = packedColsFrom cols 0 p.toNat ∧
    (write_m_to_bed m nrows ncols true).1 =
      magicHeader ++ packedMatColsFrom m nrows 0 ncols ∧
    (write_m_to_bed m nrows ncols false).1 = packedMatColsFrom m nrows 0 ncols := by
  have hpt : ¬ p.toNat = 0 := by omega
  have hct : ¬ ncols = 0 := by omega
  refine ⟨?_, ?_, ?_, ?_⟩
  · rw [rand_bed_file_ok cols n p true hn hv]
    simp [hpt]
  · rw [rand_bed_file_ok cols n p false hn hv]
    simp [hpt]
  · rw [write_m_to_bed_ok m nrows ncols true hmv]
    simp [hct]
  · rw [write_m_to_bed_ok m nrows ncols false hmv]
    simp [hct]

theorem claim_C6_amended_witness :
    (rand_bed_file (fun _ => [Genotype.val 1]) 1 1 true).1 = [108, 27, 1, 254] ∧
    (rand_bed_file (fun _ => [Genotype.val 1]) 1 1 false).1 = [254] ∧
    (write_m_to_bed (fun _ _ => Genotype.val 2) 1 1 true).1 = [108, 27, 1, 252] ∧
    (write_m_to_bed (fun _ _ => Genotype.val 2) 1 1 false).1 = [252] := by
  have h := claim_C6_amended (fun _ => [Genotype.val 1]) 1 1
    (fun _ _ => Genotype.val 2) 1 1 (by decide) (by decide) (by decide)
    (fun j g hg => by simp at hg; subst hg; decide)
    (fun _ _ _ => rfl)
  refine ⟨?_, ?_, ?_, ?_⟩
  · rw [h.1]; decide
  · rw [h.2.1]; decide
  · rw [h.2.2.1]; decide
  · rw [h.2.2.2]; decide

theorem claim_C8_counterexample :
    rand_bed_file (fun _ => []) 1 (-1) true = ([], none) ∧
    rand_gt_mat (fun _ => []) (-1) 0 = Except.error BedErr.EmptyConcat :=
  ⟨by decide, rfl⟩

/-- Claim C8 (amended): `rand_gt_mat` fails before producing anything whenever
`n` or `p` is negative (for `p = 0` via the empty-concatenation error rather
than a dimension error); `rand_bed_file` fails with `InvalidDimension` before
any byte is written only when `n` is negative and `p ≥ 1` — with a negative
`p` its column loop runs zero times and it completes without error, writing
an empty file. -/
theorem claim_C8_amended (cols cols2 cols3 : Nat → List Genotype)
    (n p n2 p2 n3 p3 : Int) (magic magic2 : Bool)
    (hneg : n < 0) (hpos : 1 ≤ p) (hp2 : p2 < 0) (hd : n3 < 0 ∨ p3 < 0) :
    rand_bed_file cols n p magic = ([], some BedErr.InvalidDimension) ∧
    rand_bed_file cols2 n2 p2 magic2 = ([], none) ∧
    (∃ e, rand_gt_mat cols3 n3 p3 = Except.error e) := by
  refine ⟨?_, ?_, ?_⟩
  · obtain ⟨k, hk⟩ : ∃ k, p.toNat = k + 1 := ⟨p.toNat - 1, by omega⟩
    unfold rand_bed_file
    rw [hk]
    simp only [bedWriteLoop, if_pos hneg]
  · have h0 : p2.toNat = 0 := by omega
    unfold rand_bed_file
    rw [h0]
    rfl
  · by_cases hp3 : p3 < 0
    · exact ⟨BedErr.InvalidDimension, by unfold rand_gt_mat; rw [if_pos hp3]⟩
    · have hn3 : n3 < 0 := by omega
      by_cases h0 : p3 = 0
      · refine ⟨BedErr.EmptyConcat, ?_⟩
        unfold rand_gt_mat
        rw [if_neg hp3, if_neg (by omega : ¬(0 < p3 ∧ n3 < 0)), if_pos h0]
      · refine ⟨BedErr.InvalidDimension, ?_⟩
        unfold rand_gt_mat
        rw [if_neg hp3, if_pos ⟨by omega, hn3⟩]

theorem claim_C8_amended_witness :
    rand_bed_file (fun _ => []) (-1) 1 true = ([], some BedErr.InvalidDimension) ∧
    rand_bed_file (fun _ => []) 5 (-1) false = ([], none) ∧
    (∃ e, rand_gt_mat (fun _ => []) (-1) 1 = Except.error e) :=
  claim_C8_amended (fun _ => []) (fun _ => []) (fun _ => [])
    (-1) 1 5 (-1) (-1) 1 true false (by decide) (by decide) (by decide)
    (Or.inl (by decide))
